import Mathlib

/-
Verification of the block-aware finite-element assembly engine
(dolfin::fem::Assembler, src/cpp/dolfin/fem/Assembler.cpp) and of
dolfin::Form (src/dolfin/fem/Form.cpp), as a shallow embedding.

Matrices and vectors are total functions over local indices with rational
entries; a freshly initialised PETSc object is the zero function.  Cell-local
data (dof lists and the tabulated dense tensor) are taken as given inputs,
mirroring the mesh / dofmap / tabulate_tensor collaborators, which are outside
the assembly core.  Boundary-condition maps model DirichletBC::Map after
get_boundary_values / gather (value maps with unique keys).
-/

/-- A global (or block-local) matrix, indexed by local row/column indices. -/
abbrev Mat : Type := Nat → Nat → ℚ

/-- A global (or block-local) vector, indexed by local indices. -/
abbrev Vect : Type := Nat → ℚ

/-- A freshly initialised matrix: all entries zero. -/
def zeroMat : Mat := fun _ _ => 0

/-- A freshly initialised vector: all entries zero. -/
def zeroVect : Vect := fun _ => 0

/-- DirichletBC::Map: constrained local dof index to prescribed value. -/
abbrev BcMap : Type := List (Nat × ℚ)

/-- Lookup in a DirichletBC::Map (std::map::find; first matching key). -/
def bcFind : BcMap → Nat → Option ℚ
  | [], _ => none
  | p :: rest, d => if p.1 = d then some p.2 else bcFind rest d

/-- The key set of a boundary-value map. -/
def bcKeys (m : BcMap) : List Nat := m.map Prod.fst

/-- std::map insertion: a key already present keeps its first value. -/
def mapInsert (m : BcMap) (p : Nat × ℚ) : BcMap :=
  if (bcFind m p.1).isSome then m else m ++ [p]

/-- Merging one condition's boundary values into the accumulated map
(DirichletBC::get_boundary_values, values post-gather). -/
def mapMerge (m adds : BcMap) : BcMap := adds.foldl mapInsert m

/-- One DirichletBC: the id of its function space and its (gathered)
constrained-dof-to-value map. -/
structure BCModel where
  space : Nat
  bvs : BcMap

/-- Collect boundary values for one axis: merge the maps of all conditions
whose function space is contained in the axis's space
(Assembler.cpp lines 417-441, 218-235, 611-626, 721-736). -/
def collectBc (spaceId : Nat) (bcs : List BCModel) : BcMap :=
  bcs.foldl (fun m bc => if bc.space = spaceId then mapMerge m bc.bvs else m) []

/-- Per-cell data for a bilinear form: the row dof list (function space 0's
dofmap), the column dof list (function space 1's dofmap) and the tabulated
dense local tensor, indexed by cell-local (i, j). -/
structure CellData where
  dofs0 : List Nat
  dofs1 : List Nat
  tensor : Nat → Nat → ℚ

/-- A bilinear form: its two function-space ids and its per-cell data
(only process-owned cells appear; ghost cells are excluded by the loop). -/
structure FormM where
  space0 : Nat
  space1 : Nat
  cells : List CellData

/-- The cell tensor after boundary zeroing (Assembler.cpp lines 471-485):
a row whose row dof is constrained is zeroed, then a column whose column dof
is constrained is zeroed. -/
def zeroedAe (bc0 bc1 : BcMap) (cell : CellData) (i j : Nat) : ℚ :=
  if (bcFind bc0 (cell.dofs0.getD i 0)).isSome then 0
  else if (bcFind bc1 (cell.dofs1.getD j 0)).isSome then 0
  else cell.tensor i j

/-- Net contribution of one cell to global entry (r, c) through
A.add_local (Assembler.cpp lines 505-506): the sum of the zeroed tensor
entries whose translated dof pair is (r, c). -/
def cellContrib (bc0 bc1 : BcMap) (cell : CellData) : Mat := fun r c =>
  ∑ i in Finset.range cell.dofs0.length, ∑ j in Finset.range cell.dofs1.length,
    (if cell.dofs0.getD i 0 = r ∧ cell.dofs1.getD j 0 = c
     then zeroedAe bc0 bc1 cell i j else 0)

/-- The cell loop of Assembler::assemble(PETScMatrix&, Form&, bcs)
(Assembler.cpp lines 448-509): additive insertion of every cell's zeroed
local tensor.  No apply/finalise call occurs here (lines 512, 536, 539 are
commented out), and no diagonal insertion (lines 516-534 commented out). -/
def assembleMatCore (A : Mat) (bc0 bc1 : BcMap) (cells : List CellData) : Mat :=
  cells.foldl (fun M cell => fun r c => M r c + cellContrib bc0 bc1 cell r c) A

/-- Assembler::assemble(PETScMatrix&, Form&, bcs): collect the per-axis
boundary maps, then run the cell loop. -/
def assembleFormMat (A : Mat) (f : FormM) (bcs : List BCModel) : Mat :=
  assembleMatCore A (collectBc f.space0 bcs) (collectBc f.space1 bcs) f.cells

/-- The diagonal-unit loop of the single-path branch
(Assembler.cpp lines 237-242): for each constrained dof, set_local
overwrites entry (d, d) with 1.0. -/
def setDiagOnes (A : Mat) (m : BcMap) : Mat :=
  m.foldl (fun M p => fun r c => if r = p.1 ∧ c = p.1 then 1 else M r c) A

/-- The single-layout branch of Assembler::assemble(PETScMatrix&, BlockType)
(Assembler.cpp lines 208-246): assemble the unblocked form into the fresh
matrix, then, when the two function spaces are identical, place 1.0 on the
diagonal for every constrained dof. -/
def assembleSingleMat (f : FormM) (bcs : List BCModel) : Mat :=
  if f.space0 = f.space1
  then setDiagOnes (assembleFormMat zeroMat f bcs) (collectBc f.space0 bcs)
  else assembleFormMat zeroMat f bcs

/-- The nested (MATNEST) branch (Assembler.cpp lines 74-96): each non-null
block form is assembled into its own physical sub-matrix; a null block is
skipped and its sub-matrix is left untouched.  No diagonal insertion and no
per-sub finalise occur (line 87 is commented out). -/
def nestedAssemble (subs : Nat → Nat → Mat) (grid : List (List (Option FormM)))
    (bcs : List BCModel) : Nat → Nat → Mat :=
  fun i j =>
    match (grid.getD i []).getD j none with
    | some f => assembleFormMat (subs i j) f bcs
    | none => subs i j

/-- Per-cell data for a linear form: the dof list and the tabulated dense
local vector. -/
structure VCellData where
  dofs : List Nat
  vec : Nat → ℚ

/-- A linear form: its function-space id and its per-cell data. -/
structure LinFormM where
  space0 : Nat
  cells : List VCellData

/-- Assembler::assemble(Eigen::Ref, Form&) (Assembler.cpp lines 559-602):
for every owned cell, accumulate the local vector additively into the buffer
at the translated indices.  No boundary zeroing occurs in this loop. -/
def assembleVecCore (b : Vect) (cells : List VCellData) : Vect :=
  cells.foldl
    (fun v cell => fun k =>
      v k + ∑ i in Finset.range cell.dofs.length,
        (if cell.dofs.getD i 0 = k then cell.vec i else 0))
    b

/-- Assembler::assemble(Eigen::Ref, Form&) applied to L's cells. -/
def assembleVec (b : Vect) (L : LinFormM) : Vect :=
  assembleVecCore b L.cells

/-- One cell step of Assembler::apply_bc (Assembler.cpp lines 640-705).
The skip test scans the cell's column dofs (dmap1); when some column dof is
constrained, be(i) accumulates minus tensor-column j times the prescribed
value over all constrained columns j, and be is added into the vector.
Note: the row dof list dmap0 is taken from dofmap1, exactly as in the source
(Assembler.cpp line 669, where the fetched dofmap0 is never used). -/
def applyBcCell (bvs : BcMap) (cell : CellData) (b : Vect) : Vect :=
  if cell.dofs1.any (fun dd => (bcFind bvs dd).isSome) then
    let dmap0 := cell.dofs1
    let be : Nat → ℚ := fun i =>
      - ∑ j in Finset.range cell.dofs1.length,
          (match bcFind bvs (cell.dofs1.getD j 0) with
           | some v => cell.tensor i j * v
           | none => 0)
    fun k => b k + ∑ i in Finset.range dmap0.length,
      (if dmap0.getD i 0 = k then be i else 0)
  else b

/-- Assembler::apply_bc(PETScVector&, Form&, bcs): boundary values are
collected against function space 1 (the column space), then the cell loop
runs (Assembler.cpp lines 604-710). -/
def applyBc (b : Vect) (a : FormM) (bcs : List BCModel) : Vect :=
  let bvs := collectBc a.space1 bcs
  a.cells.foldl (fun v cell => applyBcCell bvs cell v) b

/-- b.set_local(values, n, rows) over the (rows, values) arrays built from the
boundary map (Assembler.cpp lines 738-748): sequential overwrite. -/
def setBcApply (b : Vect) (m : BcMap) : Vect :=
  m.foldl (fun v p => fun k => if k = p.1 then p.2 else v k) b

/-- Assembler::set_bc(PETScVector&, Form&, bcs) (Assembler.cpp lines 712-750):
collect boundary values for L's function space 0, then overwrite (not add)
exactly those vector entries. -/
def setBc (b : Vect) (L : LinFormM) (bcs : List BCModel) : Vect :=
  setBcApply b (collectBc L.space0 bcs)

/-- Structural errors thrown by the assembly orchestration. -/
inductive AsmErr where
  | nullBlock
deriving DecidableEq

/-- Whether an Except value is an error. -/
def isErrorE {ε α : Type} : Except ε α → Bool
  | Except.error _ => true
  | Except.ok _ => false

/-- The ok value of an Except, with a default. -/
def exceptGetD {ε α : Type} : Except ε α → α → α
  | Except.ok a, _ => a
  | Except.error _, d => d

/-- One block of the monolithic (non-nested block) matrix path: its row and
column index-map sizes (IndexMap::MapSize::ALL, owned plus ghost,
Assembler.cpp lines 114-115) and the net block-local contribution its
unblocked assembly inserts through the local sub-matrix view. -/
structure MonoBlockM where
  rows : Nat
  cols : Nat
  contrib : Nat → Nat → ℚ

/-- Insertion of one block through MatGetLocalSubMatrix with the iota index
sets index0 = [ro, ro+rows) and index1 = [co, co+cols)
(Assembler.cpp lines 117-133): block-local entry (r, c) lands at combined
local entry (ro + r, co + c); nothing outside the window is touched. -/
def monoStepAdd (A : Mat) (ro co : Nat) (b : MonoBlockM) : Mat :=
  fun g h =>
    A g h +
      (if ro ≤ g ∧ g < ro + b.rows ∧ co ≤ h ∧ h < co + b.cols
       then b.contrib (g - ro) (h - co) else 0)

/-- The inner (column) loop of the monolithic path
(Assembler.cpp lines 104-190): the column offset starts at 0 and advances by
each assembled block's map1 ALL size; a null block throws. -/
def monoRowE (A : Mat) (ro co : Nat) : List (Option MonoBlockM) → Except AsmErr Mat
  | [] => Except.ok A
  | none :: _ => Except.error AsmErr.nullBlock
  | some b :: rest => monoRowE (monoStepAdd A ro co b) ro (co + b.cols) rest

/-- The row-offset increment (Assembler.cpp lines 191-194): the size of the
row's first block's map0 (index map of _a[i][0]'s function space 0). -/
def headRows (row : List (Option MonoBlockM)) : Nat :=
  match row.headD none with
  | some b => b.rows
  | none => 0

/-- The outer (row) loop of the monolithic path (Assembler.cpp lines
100-195): the row offset starts at 0 and advances by each row's first
block's map0 ALL size. -/
def monoGridE (A : Mat) (ro : Nat) :
    List (List (Option MonoBlockM)) → Except AsmErr Mat
  | [] => Except.ok A
  | row :: rest =>
    match monoRowE A ro 0 row with
    | Except.error e => Except.error e
    | Except.ok A2 => monoGridE A2 (ro + headRows row) rest

/-- Modelled from the spec: the BlockType layout hint passed to
Assembler::assemble.  The enum itself lives in Assembler.h, which is not
under src; the spec lists the three hints nested, monolithic and single. -/
inductive BlockType where
  | nested
  | monolithic
  | single
deriving DecidableEq

/-- Which matrix initialiser the allocation branch selects. -/
inductive MatInitKind where
  | nestMatrix
  | monolithicMatrix
  | singleFrom00
deriving DecidableEq

/-- Which vector initialiser the allocation branch selects. -/
inductive VecInitKind where
  | nestVector
  | monolithicVector
  | singleFrom0
deriving DecidableEq

/-- The matrix allocation branch of Assembler::assemble(PETScMatrix&,
BlockType) (Assembler.cpp lines 49-66): nested hint gives init_nest_matrix;
a block collection with a monolithic hint gives init_monolithic_matrix;
every other case falls through to init_matrix(*_a[0][0]).  No error branch
exists. -/
def initMatrixDispatch (numBlockRows numBlockCols : Nat) (bt : BlockType) :
    Except AsmErr MatInitKind :=
  if bt = BlockType.nested then Except.ok MatInitKind.nestMatrix
  else if (1 < numBlockRows ∨ 1 < numBlockCols) ∧ bt = BlockType.monolithic
  then Except.ok MatInitKind.monolithicMatrix
  else Except.ok MatInitKind.singleFrom00

/-- The vector allocation branch of Assembler::assemble(PETScVector&,
BlockType) (Assembler.cpp lines 255-273): same shape, falling through to
init_vector(*_l[0]).  No error branch exists. -/
def initVectorDispatch (numBlocks : Nat) (bt : BlockType) :
    Except AsmErr VecInitKind :=
  if bt = BlockType.nested then Except.ok VecInitKind.nestVector
  else if 1 < numBlocks ∧ bt = BlockType.monolithic
  then Except.ok VecInitKind.monolithicVector
  else Except.ok VecInitKind.singleFrom0

/-- Observable finalisation events of one Assembler::assemble(PETScMatrix&,
BlockType) call: an apply with AssemblyType::FINAL on the parent physical
matrix, or on the physical sub-matrix of nested block (i, j). -/
inductive MatEvent where
  | finalParent
  | finalSub (i j : Nat)
deriving DecidableEq

/-- Finalisation events emitted by Assembler::assemble(PETScMatrix&, Form&,
bcs): none — every apply call inside it is commented out
(Assembler.cpp lines 512, 536, 539). -/
def assembleFormMatEvents : List MatEvent := []

/-- Events of the block loop over the form grid (true marks a non-null
block); each inner assemble contributes its own events and nothing else
(the per-sub apply at Assembler.cpp line 87 and the flush at line 180 are
commented out). -/
def blockLoopEvents (grid : List (List Bool)) : List MatEvent :=
  (grid.map
    (fun row => (row.map (fun p => if p then assembleFormMatEvents else [])).flatten)).flatten

/-- Finalisation events of one Assembler::assemble(PETScMatrix&, BlockType)
call, by runtime layout: the nested branch runs the block loop; the
monolithic branch runs the block loop and then applies FINAL on the parent
(Assembler.cpp line 206); the single branch runs the unblocked assembly and
the diagonal loop (no apply).  Every path then applies FINAL on the parent
once more at the end of the function (Assembler.cpp line 248). -/
def assembleMatEvents (isMatnest blockMatrix : Bool) (grid : List (List Bool)) :
    List MatEvent :=
  (if isMatnest then blockLoopEvents grid
   else if blockMatrix then blockLoopEvents grid ++ [MatEvent.finalParent]
   else assembleFormMatEvents)
  ++ [MatEvent.finalParent]

/-- Number of occurrences of one event in a trace. -/
def countEvent (e : MatEvent) (l : List MatEvent) : Nat :=
  (l.filter (fun x => x == e)).length

/-- Errors raised by Form::check (via dolfin_error). -/
inductive CheckErr where
  | wrongRank
  | wrongNumCoefficients
  | wrongSpaceSignature (i : Nat)
deriving DecidableEq

/-- Form::check data: the ufc form's rank, coefficient count and expected
element signatures (create_finite_element(i)->signature(), modelled as ids),
and the realised element signatures of the attached function spaces plus the
attached coefficient count. -/
structure FormCheckM where
  ufcRank : Nat
  ufcNumCoefficients : Nat
  ufcElementSig : Nat → Nat
  spaceSigs : List Nat
  numCoefficients : Nat

/-- The argument-space loop of Form::check (Form.cpp lines 260-274): the
index of the first function space whose realised signature differs from the
expected one, if any. -/
def findSigMismatch (ufcSig : Nat → Nat) : Nat → List Nat → Option Nat
  | _, [] => none
  | i, s :: rest => if ufcSig i ≠ s then some i else findSigMismatch ufcSig (i + 1) rest

/-- Form::check (Form.cpp lines 239-275): rank guard, coefficient-count
guard, then the element-signature loop; each failure raises dolfin_error.
The function performs no assembly and runs no cell loop. -/
def formCheck (f : FormCheckM) : Except CheckErr Unit :=
  if f.ufcRank ≠ f.spaceSigs.length then Except.error CheckErr.wrongRank
  else if f.ufcNumCoefficients ≠ f.numCoefficients
  then Except.error CheckErr.wrongNumCoefficients
  else
    match findSigMismatch f.ufcElementSig 0 f.spaceSigs with
    | some i => Except.error (CheckErr.wrongSpaceSignature i)
    | none => Except.ok ()

/-- Errors raised by Form::mesh (via dolfin_error). -/
inductive MeshErr where
  | noMesh
  | nonMatching
deriving DecidableEq

/-- Form::mesh data: the mesh of each (possibly null) function space, the
explicitly set mesh, the meshes of the four domain-marker functions, and the
mesh of each coefficient (none when the coefficient is not a Function with a
mesh).  Meshes are compared by identity, modelled as ids. -/
structure FormMeshM where
  spaceMeshes : List (Option Nat)
  setMesh : Option Nat
  dxMesh : Option Nat
  dsMesh : Option Nat
  dSMesh : Option Nat
  dPMesh : Option Nat
  coefficientMeshes : List (Option Nat)

/-- The meshes collected before the coefficient fallback
(Form.cpp lines 92-114): function-space meshes, then the set mesh, then the
marker meshes. -/
def primaryMeshes (f : FormMeshM) : List Nat :=
  f.spaceMeshes.filterMap id ++ f.setMesh.toList ++ f.dxMesh.toList
    ++ f.dsMesh.toList ++ f.dSMesh.toList ++ f.dPMesh.toList

/-- The consulted mesh list (Form.cpp lines 116-128): coefficient meshes are
consulted only when the primary list is empty. -/
def meshList (f : FormMeshM) : List Nat :=
  if primaryMeshes f = [] then f.coefficientMeshes.filterMap id else primaryMeshes f

/-- The pairwise check of Form.cpp lines 139-146: some adjacent pair of the
collected mesh list differs. -/
def adjacentMismatch : List Nat → Bool
  | [] => false
  | [_] => false
  | a :: b :: rest => if a ≠ b then true else adjacentMismatch (b :: rest)

/-- Form::mesh (Form.cpp lines 85-151): error when no mesh was collected,
error when two collected meshes differ, else the first collected mesh. -/
def formMesh (f : FormMeshM) : Except MeshErr Nat :=
  match meshList f with
  | [] => Except.error MeshErr.noMesh
  | m :: rest =>
    if adjacentMismatch (m :: rest) then Except.error MeshErr.nonMatching
    else Except.ok m

/-- Concrete diagonal block for claim C1: identical function spaces (id 0),
one cell with dofs [0, 1] on both axes and the 1D stiffness-like tensor. -/
def exFormC1 : FormM :=
  { space0 := 0, space1 := 0,
    cells := [{ dofs0 := [0, 1], dofs1 := [0, 1],
                tensor := fun i j => if i = j then 2 else -1 }] }

/-- Concrete boundary condition for claim C1: dof 0 prescribed to 5. -/
def exBcsC1 : List BCModel := [{ space := 0, bvs := [(0, 5)] }]

/-- Concrete monolithic blocks for claim C2: one dof per space; block (1,1)
contributes 7 at its block-local entry (0, 0). -/
def exB00 : MonoBlockM := { rows := 1, cols := 1, contrib := fun _ _ => 0 }

/-- Concrete monolithic block (0,1) for claim C2. -/
def exB01 : MonoBlockM := { rows := 1, cols := 1, contrib := fun _ _ => 0 }

/-- Concrete monolithic block (1,0) for claim C2. -/
def exB10 : MonoBlockM := { rows := 1, cols := 1, contrib := fun _ _ => 0 }

/-- Concrete monolithic block (1,1) for claim C2. -/
def exB11 : MonoBlockM := { rows := 1, cols := 1, contrib := fun _ _ => 7 }

/-- Concrete rectangular form for claim C3: function spaces 10 and 20 with
different dofmaps; one cell with row dof list [0] (space 0) and column dof
list [1] (space 1), local tensor [[3]]. -/
def exFormC3 : FormM :=
  { space0 := 10, space1 := 20,
    cells := [{ dofs0 := [0], dofs1 := [1], tensor := fun _ _ => 3 }] }

/-- Concrete boundary condition for claim C3: column dof 1 prescribed to 2
on function space 20 (the column space). -/
def exBcsC3 : List BCModel := [{ space := 20, bvs := [(1, 2)] }]

/-- Concrete sub-matrix family for claim C7's witness. -/
def exSubsC7 : Nat → Nat → Mat := fun _ _ => zeroMat

/-- Concrete form-check data for claim C9: rank 1, expected element
signature 7, realised function-space signature 5. -/
def exCheckC9 : FormCheckM :=
  { ufcRank := 1, ufcNumCoefficients := 0, ufcElementSig := fun _ => 7,
    spaceSigs := [5], numCoefficients := 0 }

/-- Concrete form for claim C10: one function space on mesh 1 and one
coefficient on mesh 1. -/
def exMeshF : FormMeshM :=
  { spaceMeshes := [some 1], setMesh := none, dxMesh := none, dsMesh := none,
    dSMesh := none, dPMesh := none, coefficientMeshes := [some 1] }

/-- Concrete form for claim C10 with two function spaces on different
meshes 1 and 2. -/
def exMeshG : FormMeshM :=
  { spaceMeshes := [some 1, some 2], setMesh := none, dxMesh := none,
    dsMesh := none, dSMesh := none, dPMesh := none, coefficientMeshes := [] }

/-- Concrete form for claim C10 with no mesh anywhere. -/
def exMeshE : FormMeshM :=
  { spaceMeshes := [], setMesh := none, dxMesh := none, dsMesh := none,
    dSMesh := none, dPMesh := none, coefficientMeshes := [] }

lemma assembleMatCore_cons (A : Mat) (bc0 bc1 : BcMap) (cell : CellData)
    (cs : List CellData) :
    assembleMatCore A bc0 bc1 (cell :: cs)
      = assembleMatCore (fun r c => A r c + cellContrib bc0 bc1 cell r c) bc0 bc1 cs :=
  rfl

lemma assembleMatCore_add :
    ∀ (cells : List CellData) (bc0 bc1 : BcMap) (A : Mat) (r c : Nat),
      assembleMatCore A bc0 bc1 cells r c
        = A r c + assembleMatCore zeroMat bc0 bc1 cells r c
  | [], bc0, bc1, A, r, c => by simp [assembleMatCore, zeroMat]
  | cell :: cs, bc0, bc1, A, r, c => by
    rw [assembleMatCore_cons, assembleMatCore_cons,
        assembleMatCore_add cs bc0 bc1 (fun r c => A r c + cellContrib bc0 bc1 cell r c) r c,
        assembleMatCore_add cs bc0 bc1 (fun r c => zeroMat r c + cellContrib bc0 bc1 cell r c) r c]
    simp [zeroMat]
    ring

lemma assembleVecCore_cons (b : Vect) (cell : VCellData) (cs : List VCellData) :
    assembleVecCore b (cell :: cs)
      = assembleVecCore
          (fun k => b k + ∑ i in Finset.range cell.dofs.length,
            (if cell.dofs.getD i 0 = k then cell.vec i else 0)) cs :=
  rfl

lemma assembleVecCore_add :
    ∀ (cells : List VCellData) (b : Vect) (k : Nat),
      assembleVecCore b cells k = b k + assembleVecCore zeroVect cells k
  | [], b, k => by simp [assembleVecCore, zeroVect]
  | cell :: cs, b, k => by
    rw [assembleVecCore_cons, assembleVecCore_cons,
        assembleVecCore_add cs _ k,
        assembleVecCore_add cs
          (fun k => zeroVect k + ∑ i in Finset.range cell.dofs.length,
            (if cell.dofs.getD i 0 = k then cell.vec i else 0)) k]
    simp [zeroVect]
    ring

lemma cellContrib_row_zero (bc0 bc1 : BcMap) (cell : CellData) (d c : Nat)
    (hd : (bcFind bc0 d).isSome = true) : cellContrib bc0 bc1 cell d c = 0 := by
  unfold cellContrib
  refine Finset.sum_eq_zero (fun i _ => Finset.sum_eq_zero (fun j _ => ?_))
  by_cases h : cell.dofs0.getD i 0 = d ∧ cell.dofs1.getD j 0 = c
  · rw [if_pos h]
    unfold zeroedAe
    rw [h.1, if_pos hd]
  · rw [if_neg h]

lemma cellContrib_col_zero (bc0 bc1 : BcMap) (cell : CellData) (r d : Nat)
    (hd : (bcFind bc1 d).isSome = true) : cellContrib bc0 bc1 cell r d = 0 := by
  unfold cellContrib
  refine Finset.sum_eq_zero (fun i _ => Finset.sum_eq_zero (fun j _ => ?_))
  by_cases h : cell.dofs0.getD i 0 = r ∧ cell.dofs1.getD j 0 = d
  · rw [if_pos h]
    unfold zeroedAe
    rw [h.2]
    by_cases h0 : (bcFind bc0 (cell.dofs0.getD i 0)).isSome = true
    · rw [if_pos h0]
    · rw [if_neg h0, if_pos hd]
  · rw [if_neg h]

lemma assembleMatCore_row_const (bc0 bc1 : BcMap) (d : Nat)
    (hd : (bcFind bc0 d).isSome = true) :
    ∀ (cells : List CellData) (A : Mat) (c : Nat),
      assembleMatCore A bc0 bc1 cells d c = A d c
  | [], _, _ => rfl
  | cell :: cs, A, c => by
    rw [assembleMatCore_cons,
        assembleMatCore_row_const bc0 bc1 d hd cs
          (fun r c => A r c + cellContrib bc0 bc1 cell r c) c]
    simp [cellContrib_row_zero bc0 bc1 cell d c hd]

lemma assembleMatCore_col_const (bc0 bc1 : BcMap) (d : Nat)
    (hd : (bcFind bc1 d).isSome = true) :
    ∀ (cells : List CellData) (A : Mat) (r : Nat),
      assembleMatCore A bc0 bc1 cells r d = A r d
  | [], _, _ => rfl
  | cell :: cs, A, r => by
    rw [assembleMatCore_cons,
        assembleMatCore_col_const bc0 bc1 d hd cs
          (fun r c => A r c + cellContrib bc0 bc1 cell r c) r]
    simp [cellContrib_col_zero bc0 bc1 cell r d hd]

lemma setDiagOnes_cons (A : Mat) (p : Nat × ℚ) (m : BcMap) :
    setDiagOnes A (p :: m)
      = setDiagOnes (fun r c => if r = p.1 ∧ c = p.1 then 1 else A r c) m :=
  rfl

lemma setDiagOnes_ne (r c : Nat) (hrc : r ≠ c) :
    ∀ (m : BcMap) (A : Mat), setDiagOnes A m r c = A r c
  | [], _ => rfl
  | p :: rest, A => by
    rw [setDiagOnes_cons, setDiagOnes_ne r c hrc rest]
    have h : ¬(r = p.1 ∧ c = p.1) := fun h => hrc (h.1.trans h.2.symm)
    simp [h]

lemma setDiagOnes_none (d : Nat) :
    ∀ (m : BcMap) (A : Mat), bcFind m d = none → setDiagOnes A m d d = A d d
  | [], _, _ => rfl
  | p :: rest, A, h => by
    by_cases hp : p.1 = d
    · simp [bcFind, hp] at h
    · have hrest : bcFind rest d = none := by simpa [bcFind, hp] using h
      rw [setDiagOnes_cons, setDiagOnes_none d rest _ hrest]
      have hne : ¬(d = p.1 ∧ d = p.1) := fun hh => hp hh.1.symm
      exact if_neg hne

lemma setDiagOnes_diag (d : Nat) :
    ∀ (m : BcMap) (A : Mat), (bcFind m d).isSome = true → setDiagOnes A m d d = 1
  | [], _, h => by simp [bcFind] at h
  | p :: rest, A, h => by
    rw [setDiagOnes_cons]
    by_cases hrest : (bcFind rest d).isSome = true
    · exact setDiagOnes_diag d rest _ hrest
    · have hnone : bcFind rest d = none := by
        cases hbf : bcFind rest d with
        | none => rfl
        | some v => rw [hbf] at hrest; simp at hrest
      rw [setDiagOnes_none d rest _ hnone]
      have hp : p.1 = d := by
        by_cases hp : p.1 = d
        · exact hp
        · rw [bcFind, if_neg hp] at h
          rw [hnone] at h
          simp at h
      simp [hp]

lemma bcFind_none_iff : ∀ (m : BcMap) (d : Nat), bcFind m d = none ↔ d ∉ bcKeys m
  | [], d => by simp [bcFind, bcKeys]
  | p :: rest, d => by
    by_cases hp : p.1 = d
    · simp [bcFind, bcKeys, hp]
    · have hne : d ≠ p.1 := fun he => hp he.symm
      simp only [bcFind, if_neg hp, bcKeys, List.map_cons, List.mem_cons]
      rw [bcFind_none_iff rest d]
      constructor
      · intro hnm hor
        rcases hor with h1 | h2
        · exact hne h1
        · exact hnm h2
      · intro hnor hmem
        exact hnor (Or.inr hmem)

lemma nodup_append_single {l : List Nat} {a : Nat} (h : l.Nodup) (ha : a ∉ l) :
    (l ++ [a]).Nodup := by
  induction l with
  | nil => simp
  | cons x xs ih =>
    have hax : a ≠ x := fun he => ha (he ▸ List.mem_cons_self x xs)
    have hx : x ∉ xs := (List.nodup_cons.mp h).1
    have hxs : xs.Nodup := (List.nodup_cons.mp h).2
    have haxs : a ∉ xs := fun hm => ha (List.mem_cons_of_mem x hm)
    rw [List.cons_append, List.nodup_cons]
    refine ⟨?_, ih hxs haxs⟩
    intro hmem
    rcases List.mem_append.mp hmem with h1 | h2
    · exact hx h1
    · exact hax (List.mem_singleton.mp h2).symm

lemma mapInsert_nodup {m : BcMap} {p : Nat × ℚ} (h : (bcKeys m).Nodup) :
    (bcKeys (mapInsert m p)).Nodup := by
  unfold mapInsert
  by_cases hp : (bcFind m p.1).isSome = true
  · rw [if_pos hp]; exact h
  · rw [if_neg hp]
    have hn : bcFind m p.1 = none := by
      cases hbf : bcFind m p.1 with
      | none => rfl
      | some v => rw [hbf] at hp; simp at hp
    have hmem : p.1 ∉ bcKeys m := (bcFind_none_iff m p.1).mp hn
    have heq : bcKeys (m ++ [p]) = bcKeys m ++ [p.1] := by simp [bcKeys]
    rw [heq]
    exact nodup_append_single h hmem

lemma mapMerge_nodup :
    ∀ (adds m : BcMap), (bcKeys m).Nodup → (bcKeys (mapMerge m adds)).Nodup
  | [], _, h => h
  | p :: rest, m, h => mapMerge_nodup rest (mapInsert m p) (mapInsert_nodup h)

lemma collectBc_step_nodup (s : Nat) :
    ∀ (bcs : List BCModel) (m : BcMap), (bcKeys m).Nodup →
      (bcKeys (bcs.foldl
        (fun acc bc => if bc.space = s then mapMerge acc bc.bvs else acc) m)).Nodup
  | [], _, h => h
  | bc :: rest, m, h => by
    rw [List.foldl_cons]
    apply collectBc_step_nodup s rest
    by_cases hbc : bc.space = s
    · rw [if_pos hbc]; exact mapMerge_nodup bc.bvs m h
    · rw [if_neg hbc]; exact h

lemma collectBc_nodup (s : Nat) (bcs : List BCModel) :
    (bcKeys (collectBc s bcs)).Nodup :=
  collectBc_step_nodup s bcs [] (by simp [bcKeys])

lemma setBcApply_cons (b : Vect) (p : Nat × ℚ) (m : BcMap) :
    setBcApply b (p :: m)
      = setBcApply (fun k => if k = p.1 then p.2 else b k) m :=
  rfl

lemma setBcApply_lookup :
    ∀ (m : BcMap), (bcKeys m).Nodup → ∀ (b : Vect) (k : Nat),
      setBcApply b m k = match bcFind m k with | some v => v | none => b k
  | [], _, _, _ => rfl
  | p :: rest, h, b, k => by
    have hsplit := List.nodup_cons.mp h
    have hpnotin : p.1 ∉ bcKeys rest := hsplit.1
    have hnd : (bcKeys rest).Nodup := hsplit.2
    rw [setBcApply_cons, setBcApply_lookup rest hnd _ k]
    by_cases hk : k = p.1
    · rw [hk]
      have hnone : bcFind rest p.1 = none := (bcFind_none_iff rest p.1).mpr hpnotin
      rw [hnone]
      simp [bcFind]
    · have hne : ¬ p.1 = k := fun he => hk he.symm
      rw [bcFind, if_neg hne]
      cases hbf : bcFind rest k with
      | none => simp [hk]
      | some v => simp

lemma monoRowE_err :
    ∀ (row : List (Option MonoBlockM)), none ∈ row → ∀ (A : Mat) (ro co : Nat),
      monoRowE A ro co row = Except.error AsmErr.nullBlock
  | [], h, _, _, _ => by simp at h
  | none :: _, _, _, _, _ => rfl
  | some b :: rest, h, A, ro, co => by
    have hrest : none ∈ rest := by
      rcases List.mem_cons.mp h with h1 | h2
      · exact absurd h1 (by simp)
      · exact h2
    exact monoRowE_err rest hrest (monoStepAdd A ro co b) ro (co + b.cols)

lemma monoRowE_ok :
    ∀ (row : List (Option MonoBlockM)), none ∉ row → ∀ (A : Mat) (ro co : Nat),
      ∃ A2, monoRowE A ro co row = Except.ok A2
  | [], _, A, _, _ => ⟨A, rfl⟩
  | none :: _, h, _, _, _ => absurd (List.mem_cons_self _ _) h
  | some b :: rest, h, A, ro, co =>
    monoRowE_ok rest (fun hm => h (List.mem_cons_of_mem _ hm))
      (monoStepAdd A ro co b) ro (co + b.cols)

lemma monoGridE_err :
    ∀ (grid : List (List (Option MonoBlockM))),
      (∃ row ∈ grid, none ∈ row) → ∀ (A : Mat) (ro : Nat),
        monoGridE A ro grid = Except.error AsmErr.nullBlock
  | [], h, _, _ => by
    rcases h with ⟨row, hrow, _⟩
    simp at hrow
  | row :: rest, h, A, ro => by
    by_cases hr : none ∈ row
    · simp only [monoGridE, monoRowE_err row hr A ro 0]
    · rcases h with ⟨row2, hrow2, hnone2⟩
      have hrest : row2 ∈ rest := by
        rcases List.mem_cons.mp hrow2 with h1 | h2
        · exact absurd (h1 ▸ hnone2) hr
        · exact h2
      obtain ⟨A2, hA2⟩ := monoRowE_ok row hr A ro 0
      simp only [monoGridE, hA2]
      exact monoGridE_err rest ⟨row2, hrest, hnone2⟩ A2 (ro + headRows row)

lemma blockLoopEvents_eq_nil (grid : List (List Bool)) :
    blockLoopEvents grid = [] := by
  unfold blockLoopEvents
  rw [List.flatten_eq_nil_iff]
  intro x hx
  rcases List.mem_map.mp hx with ⟨row, _, hrow⟩
  rw [← hrow, List.flatten_eq_nil_iff]
  intro y hy
  rcases List.mem_map.mp hy with ⟨p, _, hp⟩
  rw [← hp]
  cases p <;> rfl

lemma findSigMismatch_isSome (ufcSig : Nat → Nat) :
    ∀ (l : List Nat) (start j : Nat), j < l.length → ufcSig (start + j) ≠ l.getD j 0 →
      (findSigMismatch ufcSig start l).isSome = true
  | [], _, j, hj, _ => by simp at hj
  | s :: rest, start, j, hj, hne => by
    by_cases h0 : ufcSig start ≠ s
    · simp [findSigMismatch, h0]
    · push_neg at h0
      have hstep : findSigMismatch ufcSig start (s :: rest)
          = findSigMismatch ufcSig (start + 1) rest := by
        simp [findSigMismatch, h0]
      rw [hstep]
      cases j with
      | zero =>
        simp only [Nat.add_zero, List.getD_cons_zero] at hne
        exact absurd h0 hne
      | succ kk =>
        have hj2 : kk < rest.length := by simpa using hj
        have hne2 : ufcSig (start + 1 + kk) ≠ rest.getD kk 0 := by
          have e : start + 1 + kk = start + (kk + 1) := by omega
          rw [e]
          simpa using hne
        exact findSigMismatch_isSome ufcSig rest (start + 1) kk hj2 hne2

lemma adjacentMismatch_false_all_eq :
    ∀ (l : List Nat), adjacentMismatch l = false →
      ∀ a ∈ l, ∀ b ∈ l, a = b
  | [], _, a, ha, _, _ => absurd ha (by simp)
  | [x], _, a, ha, b, hb => by
    have ha2 : a = x := by simpa using ha
    have hb2 : b = x := by simpa using hb
    rw [ha2, hb2]
  | x :: y :: rest, h, a, ha, b, hb => by
    have hxy : x = y := by
      by_contra hne
      simp [adjacentMismatch, hne] at h
    have htail : adjacentMismatch (y :: rest) = false := by
      rw [adjacentMismatch, if_neg (by simpa using hxy)] at h
      exact h
    have ha2 : a ∈ y :: rest := by
      rcases List.mem_cons.mp ha with h1 | h2
      · rw [h1, hxy]; exact List.mem_cons_self _ _
      · exact h2
    have hb2 : b ∈ y :: rest := by
      rcases List.mem_cons.mp hb with h1 | h2
      · rw [h1, hxy]; exact List.mem_cons_self _ _
      · exact h2
    exact adjacentMismatch_false_all_eq (y :: rest) htail a ha2 b hb2

/-- Claim C1 (counterexample): on the concrete diagonal block exFormC1 with
identical function spaces and dof 0 Dirichlet-constrained, the nested layout
path (which runs only Assembler::assemble(PETScMatrix&, Form&, bcs) on the
fresh sub-matrix) leaves the diagonal entry (0, 0) at 0, not 1.0: the unit
diagonal is inserted only by the single-path branch. -/
theorem C1_counterexample :
    assembleFormMat zeroMat exFormC1 exBcsC1 0 0 ≠ 1 := by
  norm_num [assembleFormMat, assembleMatCore, cellContrib, zeroedAe, collectBc,
    mapMerge, mapInsert, bcFind, zeroMat, exFormC1, exBcsC1,
    Finset.sum_range_succ, List.getD]

/-- Claim C1 (amended): for a Dirichlet-constrained dof d on a diagonal
block with identical function spaces, after assembly into a fresh matrix,
in the nested path row d and column d (including the diagonal entry, which
stays 0) are zero, and in the single layout path row d and column d are zero
except the diagonal entry (d, d), which equals exactly 1.0. -/
theorem C1_amended (f : FormM) (bcs : List BCModel) (d r c : Nat) (v : ℚ)
    (hs : f.space0 = f.space1)
    (hd : bcFind (collectBc f.space0 bcs) d = some v)
    (hr : r ≠ d) (hc : c ≠ d) :
    assembleFormMat zeroMat f bcs d c = 0 ∧
    assembleFormMat zeroMat f bcs r d = 0 ∧
    assembleFormMat zeroMat f bcs d d = 0 ∧
    assembleSingleMat f bcs d c = 0 ∧
    assembleSingleMat f bcs r d = 0 ∧
    assembleSingleMat f bcs d d = 1 := by
  have hd0 : (bcFind (collectBc f.space0 bcs) d).isSome = true := by
    rw [hd]; rfl
  have hd1 : (bcFind (collectBc f.space1 bcs) d).isSome = true := by
    rw [← hs]; exact hd0
  have hrow : ∀ c0, assembleFormMat zeroMat f bcs d c0 = 0 := by
    intro c0
    unfold assembleFormMat
    rw [assembleMatCore_row_const (collectBc f.space0 bcs)
          (collectBc f.space1 bcs) d hd0 f.cells zeroMat c0]
    rfl
  have hcol : ∀ r0, assembleFormMat zeroMat f bcs r0 d = 0 := by
    intro r0
    unfold assembleFormMat
    rw [assembleMatCore_col_const (collectBc f.space0 bcs)
          (collectBc f.space1 bcs) d hd1 f.cells zeroMat r0]
    rfl
  refine ⟨hrow c, hcol r, hrow d, ?_, ?_, ?_⟩
  · unfold assembleSingleMat
    rw [if_pos hs, setDiagOnes_ne d c (fun he => hc he.symm)]
    exact hrow c
  · unfold assembleSingleMat
    rw [if_pos hs, setDiagOnes_ne r d hr]
    exact hcol r
  · unfold assembleSingleMat
    rw [if_pos hs]
    exact setDiagOnes_diag d (collectBc f.space0 bcs)
      (assembleFormMat zeroMat f bcs) hd0

/-- Claim C1 (witness): the amended statement at the concrete block
exFormC1 with d = 0, r = c = 1, v = 5. -/
theorem C1_amended_witness :
    assembleFormMat zeroMat exFormC1 exBcsC1 0 1 = 0 ∧
    assembleFormMat zeroMat exFormC1 exBcsC1 1 0 = 0 ∧
    assembleFormMat zeroMat exFormC1 exBcsC1 0 0 = 0 ∧
    assembleSingleMat exFormC1 exBcsC1 0 1 = 0 ∧
    assembleSingleMat exFormC1 exBcsC1 1 0 = 0 ∧
    assembleSingleMat exFormC1 exBcsC1 0 0 = 1 :=
  C1_amended exFormC1 exBcsC1 0 1 1 5 rfl (by decide) (by decide) (by decide)

/-- Claim C2 (confirmed): in the monolithic layout on a 2x2 block form grid
whose block (0,0) has m0 row dofs and n0 column dofs (owned plus ghost), an
entry contributed by block (1,1) at block-local (r, c) lands at combined
local (m0 + r, n0 + c) of the single physical matrix: the running offsets
start at 0 and advance by each block's owned-plus-ghost dof count in
iteration order, and no other block writes to that position. -/
theorem C2_block_offsets (b00 b01 b10 b11 : MonoBlockM) (m0 n0 r c : Nat)
    (h00r : b00.rows = m0) (h00c : b00.cols = n0) (h01r : b01.rows = m0)
    (h10c : b10.cols = n0) (hr : r < b11.rows) (hc : c < b11.cols) :
    isErrorE (monoGridE zeroMat 0 [[some b00, some b01], [some b10, some b11]])
        = false ∧
    exceptGetD (monoGridE zeroMat 0 [[some b00, some b01], [some b10, some b11]])
        zeroMat (m0 + r) (n0 + c) = b11.contrib r c := by
  have hred : monoGridE zeroMat 0 [[some b00, some b01], [some b10, some b11]]
      = Except.ok
          (monoStepAdd
            (monoStepAdd
              (monoStepAdd (monoStepAdd zeroMat 0 0 b00) 0 (0 + b00.cols) b01)
              (0 + b00.rows) 0 b10)
            (0 + b00.rows) (0 + b10.cols) b11) := by
    simp only [monoGridE, monoRowE, headRows, List.headD]
  refine ⟨by rw [hred]; rfl, ?_⟩
  rw [hred]
  simp only [exceptGetD, monoStepAdd, zeroMat]
  have hc00 : ¬(0 ≤ m0 + r ∧ m0 + r < 0 + b00.rows ∧ 0 ≤ n0 + c
      ∧ n0 + c < 0 + b00.cols) := by
    rw [h00r]; omega
  have hc01 : ¬(0 ≤ m0 + r ∧ m0 + r < 0 + b01.rows ∧ 0 + b00.cols ≤ n0 + c
      ∧ n0 + c < 0 + b00.cols + b01.cols) := by
    rw [h01r]; omega
  have hc10 : ¬(0 + b00.rows ≤ m0 + r ∧ m0 + r < 0 + b00.rows + b10.rows
      ∧ 0 ≤ n0 + c ∧ n0 + c < 0 + b10.cols) := by
    rw [h10c]; omega
  have hc11 : 0 + b00.rows ≤ m0 + r ∧ m0 + r < 0 + b00.rows + b11.rows
      ∧ 0 + b10.cols ≤ n0 + c ∧ n0 + c < 0 + b10.cols + b11.cols := by
    rw [h00r, h10c]; omega
  rw [if_neg hc00, if_neg hc01, if_neg hc10, if_pos hc11]
  have e1 : m0 + r - (0 + b00.rows) = r := by rw [h00r]; omega
  have e2 : n0 + c - (0 + b10.cols) = c := by rw [h10c]; omega
  rw [e1, e2]
  ring

/-- Claim C2 (witness): the concrete 2x2 grid with one dof per space; block
(1,1)'s entry 7 at block-local (0, 0) appears at combined (1, 1). -/
theorem C2_block_offsets_witness :
    isErrorE (monoGridE zeroMat 0 [[some exB00, some exB01], [some exB10, some exB11]])
        = false ∧
    exceptGetD (monoGridE zeroMat 0 [[some exB00, some exB01], [some exB10, some exB11]])
        zeroMat (1 + 0) (1 + 0) = exB11.contrib 0 0 :=
  C2_block_offsets exB00 exB01 exB10 exB11 1 1 0 0 rfl rfl rfl rfl
    (by decide) (by decide)

/-- Claim C3 (code bug): evaluation of apply_bc at the failing input
exFormC3 / exBcsC3 (one cell, row dofs [0] from function space 0, column
dofs [1] from function space 1, tensor [[3]], prescribed value 2 at column
dof 1).  The lifted contribution -3*2 = -6 is added at dof 1 — the column
dof — because Assembler.cpp line 669 takes the row dof list from dofmap1;
the claim (and the spec) require it at row dof 0 of function space 0, which
is left unchanged here. -/
theorem C3_code_eval :
    applyBc zeroVect exFormC3 exBcsC3 1 = -6 ∧
    applyBc zeroVect exFormC3 exBcsC3 0 = 0 := by
  constructor <;>
    norm_num [applyBc, applyBcCell, collectBc, mapMerge, mapInsert, bcFind,
      zeroVect, exFormC3, exBcsC3, Finset.sum_range_succ, List.getD]

/-- Claim C4 (confirmed): matrix and vector insertion is purely additive:
assembling a form twice into independently zero-initialised targets and
summing the results entrywise equals assembling once into a target
pre-loaded with the first result; the linear-form core accumulates into the
buffer and performs no boundary zeroing. -/
theorem C4_additivity :
    (∀ (f : FormM) (bcs : List BCModel) (r c : Nat),
        assembleFormMat (assembleFormMat zeroMat f bcs) f bcs r c
          = assembleFormMat zeroMat f bcs r c + assembleFormMat zeroMat f bcs r c)
    ∧ (∀ (L : LinFormM) (k : Nat),
        assembleVec (assembleVec zeroVect L) L k
          = assembleVec zeroVect L k + assembleVec zeroVect L k) := by
  constructor
  · intro f bcs r c
    unfold assembleFormMat
    exact assembleMatCore_add f.cells (collectBc f.space0 bcs)
      (collectBc f.space1 bcs) _ r c
  · intro L k
    unfold assembleVec
    exact assembleVecCore_add L.cells _ k

/-- Claim C5 (confirmed): set_bc overwrites (does not add to) exactly the
vector entries at the constrained dofs of L's function space with their
prescribed values, and leaves every entry at an unconstrained dof
unchanged. -/
theorem C5_set_bc (b : Vect) (L : LinFormM) (bcs : List BCModel) (k : Nat) :
    setBc b L bcs k =
      match bcFind (collectBc L.space0 bcs) k with
      | some v => v
      | none => b k := by
  unfold setBc
  exact setBcApply_lookup (collectBc L.space0 bcs)
    (collectBc_nodup L.space0 bcs) b k

/-- Claim C6 (counterexample): requesting the single layout for a 2x2 block
matrix collection (and a 2-block vector collection) is not a surfaced error:
the allocation branch selects the ordinary unblocked initialiser built from
block (0,0) alone (respectively L[0] alone) and returns no error. -/
theorem C6_counterexample :
    initMatrixDispatch 2 2 BlockType.single = Except.ok MatInitKind.singleFrom00 ∧
    initVectorDispatch 2 BlockType.single = Except.ok VecInitKind.singleFrom0 ∧
    isErrorE (initMatrixDispatch 2 2 BlockType.single) = false := by
  refine ⟨?_, ?_, ?_⟩ <;> rfl

/-- Claim C6 (amended): for every block form collection with more than one
matrix block (or more than one linear form), requesting the single layout is
not detected: allocation silently falls through to the unblocked
initialiser using block (0,0) (respectively L[0]) alone, and no error is
surfaced. -/
theorem C6_amended (nr nc nL : Nat) (hM : 1 < nr ∨ 1 < nc) (hL : 1 < nL) :
    initMatrixDispatch nr nc BlockType.single = Except.ok MatInitKind.singleFrom00
    ∧ initVectorDispatch nL BlockType.single = Except.ok VecInitKind.singleFrom0 := by
  constructor
  · unfold initMatrixDispatch
    rw [if_neg (by simp : ¬(BlockType.single = BlockType.nested)),
        if_neg (fun h => by simpa using h.2)]
  · unfold initVectorDispatch
    rw [if_neg (by simp : ¬(BlockType.single = BlockType.nested)),
        if_neg (fun h => by simpa using h.2)]

/-- Claim C6 (witness): the amended statement at the concrete 2x2 matrix
grid and 2-block vector collection. -/
theorem C6_amended_witness :
    initMatrixDispatch 2 2 BlockType.single = Except.ok MatInitKind.singleFrom00
    ∧ initVectorDispatch 2 BlockType.single = Except.ok VecInitKind.singleFrom0 :=
  C6_amended 2 2 2 (Or.inl (by decide)) (by decide)

/-- Claim C7 (confirmed): null blocks are handled per layout: in the nested
matrix path a null block a[i][j] is skipped and nothing is inserted into its
sub-matrix, while in the monolithic matrix path a grid with a null diagonal
block raises the structural error (it is never silently treated as zero). -/
theorem C7_null_blocks (subs : Nat → Nat → Mat) (grid : List (List (Option FormM)))
    (bcs : List BCModel) (i j : Nat)
    (hnull : (grid.getD i []).getD j none = none)
    (A : Mat) (ro : Nat) (mgrid : List (List (Option MonoBlockM))) (k : Nat)
    (hk : k < mgrid.length) (hk2 : k < (mgrid.get ⟨k, hk⟩).length)
    (hdiag : (mgrid.get ⟨k, hk⟩).get ⟨k, hk2⟩ = none) :
    nestedAssemble subs grid bcs i j = subs i j ∧
    monoGridE A ro mgrid = Except.error AsmErr.nullBlock := by
  constructor
  · unfold nestedAssemble
    rw [hnull]
  · apply monoGridE_err
    exact ⟨mgrid.get ⟨k, hk⟩, List.get_mem mgrid k hk,
      hdiag ▸ List.get_mem (mgrid.get ⟨k, hk⟩) k hk2⟩

/-- Claim C7 (witness): the 1x1 grid whose only (diagonal) block is null:
the nested path leaves the sub-matrix untouched and the monolithic path
raises the null-block error. -/
theorem C7_null_blocks_witness :
    nestedAssemble exSubsC7 [[none]] [] 0 0 = exSubsC7 0 0 ∧
    monoGridE zeroMat 0 [[none]] = Except.error AsmErr.nullBlock :=
  C7_null_blocks exSubsC7 [[none]] [] 0 0 rfl zeroMat 0 [[none]] 0
    (by decide) (by decide) rfl

/-- Claim C8 (counterexample): in the monolithic layout one call of
Assembler::assemble(PETScMatrix&, BlockType) applies FINAL on the single
physical matrix twice (Assembler.cpp lines 206 and 248), not once; and in
the nested layout the physical sub-objects receive zero FINAL applies (the
per-sub apply at line 87 is commented out), not one each. -/
theorem C8_counterexample :
    countEvent MatEvent.finalParent
        (assembleMatEvents false true [[true, true], [true, true]]) = 2 ∧
    countEvent (MatEvent.finalSub 0 0)
        (assembleMatEvents true true [[true, true], [true, true]]) = 0 := by
  refine ⟨?_, ?_⟩ <;> rfl

/-- Claim C8 (amended): per call, the FINAL apply runs exactly once on the
parent physical matrix in the nested layout (and never on a nested
sub-object), exactly twice on the single physical matrix in the monolithic
layout, and exactly once in the single layout. -/
theorem C8_amended (gridN gridM gridS : List (List Bool)) (i j : Nat) :
    countEvent MatEvent.finalParent (assembleMatEvents true true gridN) = 1 ∧
    countEvent (MatEvent.finalSub i j) (assembleMatEvents true true gridN) = 0 ∧
    countEvent MatEvent.finalParent (assembleMatEvents false true gridM) = 2 ∧
    countEvent MatEvent.finalParent (assembleMatEvents false false gridS) = 1 := by
  refine ⟨?_, ?_, ?_, ?_⟩ <;>
    simp [assembleMatEvents, blockLoopEvents_eq_nil, countEvent,
      assembleFormMatEvents, List.filter]

/-- Claim C9 (confirmed): for every form whose expected finite element
signature (from the ufc form) differs from the signature realised by one of
its function spaces, Form::check raises a fatal error; the check itself
performs no assembly, so the error surfaces at form-validation time, before
any assembly cell loop runs. -/
theorem C9_signature_error (f : FormCheckM) (i : Nat)
    (hi : i < f.spaceSigs.length)
    (hne : f.ufcElementSig i ≠ f.spaceSigs.getD i 0) :
    isErrorE (formCheck f) = true := by
  unfold formCheck
  by_cases h1 : f.ufcRank ≠ f.spaceSigs.length
  · rw [if_pos h1]; rfl
  · rw [if_neg h1]
    by_cases h2 : f.ufcNumCoefficients ≠ f.numCoefficients
    · rw [if_pos h2]; rfl
    · rw [if_neg h2]
      have hsome := findSigMismatch_isSome f.ufcElementSig f.spaceSigs 0 i hi
        (by simpa using hne)
      cases hm : findSigMismatch f.ufcElementSig 0 f.spaceSigs with
      | none => rw [hm] at hsome; simp at hsome
      | some idx => rfl

/-- Claim C9 (witness): the concrete form exCheckC9 with expected signature
7 against realised signature 5 is rejected by Form::check. -/
theorem C9_signature_error_witness : isErrorE (formCheck exCheckC9) = true :=
  C9_signature_error exCheckC9 0 (by decide) (by decide)

/-- Claim C10 (confirmed): Form::mesh cross-checks only the function-space
meshes, the explicitly set mesh and the marker meshes, raising an error when
two consulted meshes differ or when none exists; coefficient meshes are
consulted only when that primary set is empty, so a coefficient on a
different mesh is not detected when the primary set is nonempty. -/
theorem C10_mesh_consistency (f : FormMeshM) (c2 : List (Option Nat))
    (hp : primaryMeshes f ≠ [])
    (g : FormMeshM) (x y : Nat) (hx : x ∈ meshList g) (hy : y ∈ meshList g)
    (hxy : x ≠ y)
    (e : FormMeshM) (he : meshList e = []) :
    formMesh { f with coefficientMeshes := c2 } = formMesh f ∧
    formMesh g = Except.error MeshErr.nonMatching ∧
    formMesh e = Except.error MeshErr.noMesh := by
  refine ⟨?_, ?_, ?_⟩
  · have hml : meshList { f with coefficientMeshes := c2 } = meshList f := by
      unfold meshList
      have hprim : primaryMeshes { f with coefficientMeshes := c2 }
          = primaryMeshes f := rfl
      rw [hprim, if_neg hp, if_neg hp]
    unfold formMesh
    rw [hml]
  · cases hml : meshList g with
    | nil => rw [hml] at hx; simp at hx
    | cons m rest =>
      have hmis : adjacentMismatch (m :: rest) = true := by
        cases hvv : adjacentMismatch (m :: rest) with
        | true => rfl
        | false =>
          rw [hml] at hx hy
          exact absurd (adjacentMismatch_false_all_eq (m :: rest) hvv x hx y hy) hxy
      unfold formMesh
      rw [hml]
      simp [hmis]
  · unfold formMesh
    rw [he]

/-- Claim C10 (witness): exMeshF (space on mesh 1) keeps its result when its
coefficient is moved to mesh 2; exMeshG (spaces on meshes 1 and 2) errors
with non-matching meshes; exMeshE (no mesh anywhere) errors with no mesh. -/
theorem C10_mesh_consistency_witness :
    formMesh { exMeshF with coefficientMeshes := [some 2] } = formMesh exMeshF ∧
    formMesh exMeshG = Except.error MeshErr.nonMatching ∧
    formMesh exMeshE = Except.error MeshErr.noMesh :=
  C10_mesh_consistency exMeshF [some 2] (by decide) exMeshG 1 2 (by decide)
    (by decide) (by decide) exMeshE (by decide)
